import Mathlib

/-!
Verification of the eth-go state-transition engine (`src/ethchain/state_transition.go`)
and the wire message reader (`src/ethwire/messaging.go`) against the repository's
natural-language specification.

The embedding translates the Go source into pure Lean functions: `big.Int` amounts
become `Int`, byte slices become `List Nat`, the ledger store becomes an explicit
association list threaded through the computation, and the fallible Go functions
return `Except` / tagged results.
-/

namespace EthGo

/-- Account addresses, abstracted to natural numbers. -/
abbrev Addr := Nat

/-- Byte sequences, as lists of naturals. -/
abbrev Bytes := List Nat

/-- Account ledger entry, embedding `StateObject` from the ethchain package:
`Amount` is the balance (`*big.Int`), `Nonce` the replay counter (`uint64`),
`script` the account's code and `initScript` the initialization code of a
freshly created contract. -/
structure StateObject where
  address : Addr
  Amount : Int
  Nonce : Nat
  script : Bytes
  initScript : Bytes
  deriving Repr, DecidableEq

/-- Embeds `StateObject.AddAmount`: credit the balance unconditionally. -/
def StateObject.AddAmount (o : StateObject) (v : Int) : StateObject :=
  { o with Amount := o.Amount + v }

/-- Embeds `StateObject.SubAmount`: debit the balance. -/
def StateObject.SubAmount (o : StateObject) (v : Int) : StateObject :=
  { o with Amount := o.Amount - v }

/-- Modelled from the spec: the ledger store returns a freshly-initialized
zero-value account when an address is absent (spec section 4.5); this is the
zero-value account. -/
def emptyAccount (a : Addr) : StateObject :=
  { address := a, Amount := 0, Nonce := 0, script := [], initScript := [] }

/-- Lookup of an account entry in the ledger's association list. -/
def lookupAcc : List (Addr × StateObject) → Addr → Option StateObject
  | [], _ => none
  | (b, p) :: t, a => if b = a then some p else lookupAcc t a

/-- Insert-or-replace of an account entry in the ledger's association list. -/
def updateAssoc : List (Addr × StateObject) → Addr → StateObject → List (Addr × StateObject)
  | [], a, o => [(a, o)]
  | (b, p) :: t, a, o => if b = a then (a, o) :: t else (b, p) :: updateAssoc t a o

/-- The ledger state. `accounts` models the account trie of the ethchain `State`
(keyed by address, read by `GetAccount`, written by `UpdateStateObject`);
`states` models the `State.states` cache map into which `MakeStateObject`
(src/ethchain/state_transition.go line 55) registers a new contract's storage
state, recorded here by creation address. -/
structure State where
  accounts : List (Addr × StateObject)
  states : List Addr
  deriving Repr, DecidableEq

/-- Modelled from the spec: `State.GetAccount` is not under src/; spec section 4.5
says `get(address)` returns the stored account, or a freshly-initialized
zero-value account if absent — never an error. -/
def State.GetAccount (s : State) (a : Addr) : StateObject :=
  match lookupAcc s.accounts a with
  | some o => o
  | none => emptyAccount a

/-- Modelled from the spec: `State.UpdateStateObject` is not under src/; spec
section 4.5 says `update(account)` writes the account back to the store,
keyed by its address. -/
def State.UpdateStateObject (s : State) (o : StateObject) : State :=
  { s with accounts := updateAssoc s.accounts o.address o }

/-- Well-formedness of a ledger: every stored entry's account carries the
address it is keyed by (true by construction for the Go trie, whose
`StateObject`s are decoded with the key as their address). -/
def State.WF (s : State) : Prop := ∀ p ∈ s.accounts, p.2.address = p.1

instance (s : State) : Decidable s.WF :=
  List.decidableBAll _ s.accounts

/-- Transaction value object, embedding the ethchain `Transaction` fields the
engine reads: `Recipient = none` encodes an absent recipient
(`tx.CreatesContract()`), `sender` the address recovered from the signature
(`tx.Sender()`). -/
structure Transaction where
  Nonce : Nat
  Recipient : Option Addr
  Value : Int
  Gas : Int
  GasPrice : Int
  Data : Bytes
  sender : Addr
  deriving Repr, DecidableEq

/-- Modelled from the spec: `Transaction.GasValue` is not under src/; it is the
gas pre-payment `gasLimit × gasPrice` (spec section 4.4 step 4). -/
def Transaction.GasValue (tx : Transaction) : Int := tx.Gas * tx.GasPrice

/-- Modelled from the spec: `Transaction.CreationAddress` is not under src/;
spec section 4.3 says it is deterministically computable from
`(sender, nonce)`, embedded here as the canonical pairing of the two. -/
def Transaction.CreationAddress (tx : Transaction) : Addr :=
  Nat.pair tx.sender tx.Nonce

/-- The address at which the transition's receiver account is committed:
the explicit recipient, or the creation address for contract creation. -/
def Transaction.receiverAddress (tx : Transaction) : Addr :=
  match tx.Recipient with
  | some r => r
  | none => tx.CreationAddress

/-- The typed failures of one state transition, mirroring the error returns of
`TransitionState` and its callees: `nonceError got expected` carries the
transaction nonce and the sender nonce in the argument order of the
`NonceError(tx.Nonce, sender.Nonce)` call site. -/
inductive TransitionError where
  | nonceError (got expected : Nat)
  | insufficientGasFunds
  | outOfGas
  | contractCreationFailed
  | insufficientValueFunds
  | initializationFailed
  deriving Repr, DecidableEq

/-- Embeds `StateTransition.UseGas` (src/ethchain/state_transition.go lines
63-70): fail with `OutOfGas` when the counter cannot cover the amount,
otherwise subtract; the counter is untouched on failure. -/
def UseGas (gas amount : Int) : Except TransitionError Int :=
  if gas < amount then .error .outOfGas else .ok (gas - amount)

/-- Modelled from the spec: `MakeContract` is not under src/; spec section 4.4
step 8 instantiates a new account at the creation address with zero
balance/nonce/code (its initialization code taken from the transaction
payload) and rejects instantiation on an address collision. -/
def MakeContract (tx : Transaction) (st : State) : Option StateObject :=
  match tx.Recipient with
  | some _ => none
  | none =>
    if (lookupAcc st.accounts tx.CreationAddress).isSome then none
    else some { address := tx.CreationAddress, Amount := 0, Nonce := 0,
                script := [], initScript := tx.Data }

/-- Modelled from the spec: the script execution engine (`Closure.Call` via
`StateTransition.Eval`) is an external collaborator (spec sections 4.5 and 6);
`run script context callData gas` returns the resulting code bytes or an
error, together with the gas counter left after the run. -/
structure EvalOracle where
  run : Bytes → StateObject → Bytes → Int → Except Unit Bytes × Int

/-- A script engine is gas-sound when it never leaves the shared gas counter
negative nor larger than the budget it was handed. -/
def OracleSound (o : EvalOracle) : Prop :=
  ∀ s c d g, 0 ≤ g → 0 ≤ (o.run s c d g).2 ∧ (o.run s c d g).2 ≤ g

/-- Protocol gas constants `GasTx` and `GasData`, external to the engine
(spec section 9 leaves their values to the gas schedule collaborator). -/
structure GasSchedule where
  gasTx : Int
  gasData : Int
  deriving Repr, DecidableEq

/-- Outcome of one `TransitionState` run: the ledger state at return, the gas
counter at return, and the error if the transition failed. -/
structure TResult where
  state : State
  gas : Int
  error : Option TransitionError
  deriving Repr, DecidableEq

/-- Embeds `StateTransition.transferValue` and the tail of `TransitionState`
(src/ethchain/state_transition.go lines 146-167): value-funds check, debit
sender / credit receiver, the initialization run on the contract-creation
branch, and the final commit of sender and receiver. -/
def afterReceiver (oracle : EvalOracle) (tx : Transaction) (st : State)
    (sender receiver : StateObject) (g : Int) : TResult :=
  if sender.Amount < tx.Value then
    ⟨st, g, some .insufficientValueFunds⟩
  else
    match tx.Recipient with
    | some _ =>
      ⟨(st.UpdateStateObject (sender.SubAmount tx.Value)).UpdateStateObject
          (receiver.AddAmount tx.Value), g, none⟩
    | none =>
      match oracle.run (receiver.AddAmount tx.Value).initScript
          (receiver.AddAmount tx.Value) tx.Data g with
      | (.error _, g') => ⟨st, g', some .initializationFailed⟩
      | (.ok code, g') =>
        ⟨(st.UpdateStateObject (sender.SubAmount tx.Value)).UpdateStateObject
            { receiver.AddAmount tx.Value with script := code }, g', none⟩

/-- Embeds `TransitionState` after a successful gas purchase
(src/ethchain/state_transition.go lines 127-167): resolve the receiver
(`Receiver()` is a side-effect-free store read, inlined at its use), charge
the base transaction gas `GasTx`, charge the data gas
`len(tx.Data) * GasData`, create the contract account on the creation branch
(`MakeStateObject`, which also registers the new contract's storage state in
the `states` cache), then transfer value and finish. -/
def afterBuyGas (G : GasSchedule) (oracle : EvalOracle) (tx : Transaction)
    (st1 : State) (sender : StateObject) (g0 : Int) : TResult :=
  match UseGas g0 G.gasTx with
  | .error e => ⟨st1, g0, some e⟩
  | .ok g1 =>
    match UseGas g1 ((tx.Data.length : Int) * G.gasData) with
    | .error e => ⟨st1, g1, some e⟩
    | .ok g2 =>
      match tx.Recipient with
      | some r => afterReceiver oracle tx st1 sender (st1.GetAccount r) g2
      | none =>
        match MakeContract tx st1 with
        | none => ⟨st1, g2, some .contractCreationFailed⟩
        | some contract =>
          afterReceiver oracle tx
            { st1 with states := tx.CreationAddress :: st1.states }
            sender contract g2

/-- Embeds `StateTransition.TransitionState` (src/ethchain/state_transition.go
lines 97-168): fetch the sender, reject on nonce mismatch, bump the cached
sender's nonce (a local, uncommitted mutation; `uint64` wrap made explicit),
then `BuyGas` (lines 76-95): reject when the balance cannot cover
`GasValue = gasLimit × gasPrice`, otherwise credit the coinbase by that fee
and write it through to the store at once (`UpdateStateObject(coinbase)`,
line 89), debit the cached sender, and start the gas counter at the gas
limit (`AddGas(tx.Gas)` from zero). The rest is `afterBuyGas`. -/
def TransitionState (G : GasSchedule) (oracle : EvalOracle) (cb : Addr)
    (tx : Transaction) (st0 : State) : TResult :=
  if (st0.GetAccount tx.sender).Nonce ≠ tx.Nonce then
    ⟨st0, 0, some (.nonceError tx.Nonce (st0.GetAccount tx.sender).Nonce)⟩
  else if (st0.GetAccount tx.sender).Amount < tx.GasValue then
    ⟨st0, 0, some .insufficientGasFunds⟩
  else
    afterBuyGas G oracle tx
      (st0.UpdateStateObject ((st0.GetAccount cb).AddAmount tx.GasValue))
      ({ st0.GetAccount tx.sender with
          Nonce := ((st0.GetAccount tx.sender).Nonce + 1) % 2 ^ 64 }.SubAmount
        tx.GasValue)
      (0 + tx.Gas)

/-! ### Wire message reader (src/ethwire/messaging.go) -/

/-- The possible outcomes of one `ReadMessage` call on a byte buffer. `fault`
marks the Go run-time fault (slice bound out of range) raised by the
expression `data[8+messageLength:]` when `8 + messageLength` exceeds the
buffer length; `errLength got expected` is the "message length" error
return; `ok` carries the raw message body (whose RLP decoding belongs to the
excluded serialization codec) and the remaining bytes. -/
inductive ReadOutcome where
  | done
  | errInvalid
  | errMagic
  | fault
  | errLength (got expected : Nat)
  | ok (message remaining : Bytes)
  deriving Repr, DecidableEq

/-- The magic token opening every wire message (src/ethwire/messaging.go line 22). -/
def MagicToken : Bytes := [34, 64, 8, 145]

/-- Modelled from the spec: `ethutil.BytesToNumber` is not under src/; the
4-byte length header is interpreted as a big-endian unsigned integer. -/
def BytesToNumber (b : Bytes) : Nat :=
  b.foldl (fun acc x => acc * 256 + x) 0

/-- The message length declared by bytes 4-7 of the buffer
(`messageLength := ethutil.BytesToNumber(data[4:8])`). -/
def declaredLength (data : Bytes) : Nat :=
  BytesToNumber ((data.drop 4).take 4)

/-- Embeds `ReadMessage` (src/ethwire/messaging.go lines 229-262, identical to
the method `readMessage` at lines 141-174) statement by statement: empty
buffer means done; a buffer of at most 8 bytes is an invalid message; the
first four bytes must be the magic token; then the Go code evaluates
`remaining = data[8+messageLength:]` — which faults when `8 + messageLength`
exceeds the buffer length — before it tests `messageLength > len(data[8:])`
and returns the length error. -/
def ReadMessage (data : Bytes) : ReadOutcome :=
  if data.length = 0 then .done
  else if data.length ≤ 8 then .errInvalid
  else if data.take 4 ≠ MagicToken then .errMagic
  else if data.length < 8 + declaredLength data then .fault
  else if data.length - 8 < declaredLength data then
    .errLength (data.length - 8) (declaredLength data)
  else
    .ok ((data.drop 8).take (declaredLength data))
      (data.drop (8 + declaredLength data))

/-! ### Ledger lemmas -/

lemma lookupAcc_updateAssoc_self (l : List (Addr × StateObject)) (a : Addr)
    (o : StateObject) : lookupAcc (updateAssoc l a o) a = some o := by
  induction l with
  | nil => simp [updateAssoc, lookupAcc]
  | cons p t ih =>
    obtain ⟨b, q⟩ := p
    by_cases hb : b = a
    · simp [updateAssoc, hb, lookupAcc]
    · simp [updateAssoc, hb, lookupAcc, ih]

lemma lookupAcc_updateAssoc_ne (l : List (Addr × StateObject)) (a c : Addr)
    (o : StateObject) (h : c ≠ a) :
    lookupAcc (updateAssoc l a o) c = lookupAcc l c := by
  have hac : ¬a = c := fun h' => h h'.symm
  induction l with
  | nil => simp only [updateAssoc, lookupAcc, if_neg hac]
  | cons p t ih =>
    obtain ⟨b, q⟩ := p
    by_cases hb : b = a
    · subst hb
      simp only [updateAssoc, if_pos rfl, lookupAcc, if_neg hac]
    · simp only [updateAssoc, if_neg hb, lookupAcc]
      by_cases hc : b = c <;> simp [hc, ih]

lemma lookupAcc_address_aux (a : Addr) :
    ∀ l : List (Addr × StateObject), (∀ p ∈ l, p.2.address = p.1) →
      ∀ o, lookupAcc l a = some o → o.address = a
  | [], _, o, h => by simp [lookupAcc] at h
  | (b, q) :: t, hl, o, h => by
    by_cases hb : b = a
    · subst hb
      simp only [lookupAcc, if_pos rfl, Option.some.injEq] at h
      cases h
      exact hl (b, q) (by simp)
    · simp only [lookupAcc, if_neg hb] at h
      exact lookupAcc_address_aux a t (fun p hp => hl p (List.mem_cons_of_mem _ hp)) o h

lemma lookupAcc_address {s : State} (hwf : s.WF) (a : Addr) :
    ∀ o, lookupAcc s.accounts a = some o → o.address = a :=
  lookupAcc_address_aux a s.accounts hwf

lemma GetAccount_address {s : State} (hwf : s.WF) (a : Addr) :
    (s.GetAccount a).address = a := by
  unfold State.GetAccount
  cases h : lookupAcc s.accounts a with
  | none => simp [emptyAccount]
  | some o => exact lookupAcc_address hwf a o h

lemma GetAccount_update_self (s : State) (o : StateObject) (a : Addr)
    (h : o.address = a) : (s.UpdateStateObject o).GetAccount a = o := by
  unfold State.UpdateStateObject State.GetAccount
  simp [h, lookupAcc_updateAssoc_self]

lemma GetAccount_update_ne (s : State) (o : StateObject) (a : Addr)
    (h : a ≠ o.address) : (s.UpdateStateObject o).GetAccount a = s.GetAccount a := by
  unfold State.UpdateStateObject State.GetAccount
  rw [lookupAcc_updateAssoc_ne _ _ _ _ h]

@[simp] lemma AddAmount_address (o : StateObject) (v : Int) :
    (o.AddAmount v).address = o.address := rfl

@[simp] lemma SubAmount_address (o : StateObject) (v : Int) :
    (o.SubAmount v).address = o.address := rfl

@[simp] lemma AddAmount_Amount (o : StateObject) (v : Int) :
    (o.AddAmount v).Amount = o.Amount + v := rfl

@[simp] lemma SubAmount_Amount (o : StateObject) (v : Int) :
    (o.SubAmount v).Amount = o.Amount - v := rfl

@[simp] lemma AddAmount_initScript (o : StateObject) (v : Int) :
    (o.AddAmount v).initScript = o.initScript := rfl

@[simp] lemma AddAmount_Nonce (o : StateObject) (v : Int) :
    (o.AddAmount v).Nonce = o.Nonce := rfl

@[simp] lemma AddAmount_script (o : StateObject) (v : Int) :
    (o.AddAmount v).script = o.script := rfl

lemma updateAssoc_WF_aux (a : Addr) (o : StateObject) (h : o.address = a) :
    ∀ l : List (Addr × StateObject), (∀ p ∈ l, p.2.address = p.1) →
      ∀ p ∈ updateAssoc l a o, p.2.address = p.1
  | [], _, p, hp => by
    simp [updateAssoc] at hp
    simp [hp, h]
  | (b, q) :: t, hl, p, hp => by
    by_cases hb : b = a
    · subst hb
      simp only [updateAssoc, if_pos rfl] at hp
      rcases List.mem_cons.mp hp with rfl | hmem
      · simpa using h
      · exact hl p (List.mem_cons_of_mem _ hmem)
    · simp only [updateAssoc, if_neg hb] at hp
      rcases List.mem_cons.mp hp with rfl | hmem
      · exact hl (b, q) (by simp)
      · exact updateAssoc_WF_aux a o h t
          (fun p hp => hl p (List.mem_cons_of_mem _ hp)) p hmem

lemma WF_update {s : State} (o : StateObject) (h : s.WF) :
    (s.UpdateStateObject o).WF :=
  updateAssoc_WF_aux o.address o rfl s.accounts h

lemma GetAccount_eq_of_accounts {s t : State} (h : s.accounts = t.accounts)
    (a : Addr) : s.GetAccount a = t.GetAccount a := by
  unfold State.GetAccount
  rw [h]

lemma MakeContract_some {tx : Transaction} {st : State} {contract : StateObject}
    (h : MakeContract tx st = some contract) :
    contract = { address := tx.CreationAddress, Amount := 0, Nonce := 0,
                 script := [], initScript := tx.Data }
    ∧ lookupAcc st.accounts tx.CreationAddress = none
    ∧ tx.Recipient = none := by
  unfold MakeContract at h
  split at h
  · cases h
  · rename_i hr
    split at h
    · cases h
    · rename_i hcoll
      cases h
      exact ⟨rfl, by simpa using hcoll, hr⟩

/-! ### Gas unit lemmas -/

lemma UseGas_error {g a : Int} {e : TransitionError} (h : UseGas g a = .error e) :
    e = .outOfGas ∧ g < a := by
  unfold UseGas at h
  split at h
  · cases h
    exact ⟨rfl, by assumption⟩
  · cases h

lemma UseGas_ok {g a g' : Int} (h : UseGas g a = .ok g') : a ≤ g ∧ g' = g - a := by
  unfold UseGas at h
  split at h
  · cases h
  · cases h
    exact ⟨by omega, rfl⟩

/-! ### Shape of the transition's outcomes -/

lemma afterReceiver_shape (oracle : EvalOracle) (tx : Transaction) (st : State)
    (sender receiver : StateObject) (g : Int) :
    (afterReceiver oracle tx st sender receiver g).error = none
    ∨ ((afterReceiver oracle tx st sender receiver g).state = st ∧
       ((afterReceiver oracle tx st sender receiver g).error = some .insufficientValueFunds
        ∨ (afterReceiver oracle tx st sender receiver g).error = some .initializationFailed)) := by
  unfold afterReceiver
  split
  · exact Or.inr ⟨rfl, Or.inl rfl⟩
  · split
    · exact Or.inl rfl
    · split
      · exact Or.inr ⟨rfl, Or.inr rfl⟩
      · exact Or.inl rfl

lemma afterBuyGas_shape (G : GasSchedule) (oracle : EvalOracle) (tx : Transaction)
    (st1 : State) (sender : StateObject) (g0 : Int) :
    (afterBuyGas G oracle tx st1 sender g0).error = none
    ∨ ((afterBuyGas G oracle tx st1 sender g0).state.accounts = st1.accounts ∧
       ((afterBuyGas G oracle tx st1 sender g0).error = some .outOfGas
        ∨ (afterBuyGas G oracle tx st1 sender g0).error = some .contractCreationFailed
        ∨ (afterBuyGas G oracle tx st1 sender g0).error = some .insufficientValueFunds
        ∨ (afterBuyGas G oracle tx st1 sender g0).error = some .initializationFailed)) := by
  unfold afterBuyGas
  split
  · rename_i e heq
    rcases UseGas_error heq with ⟨rfl, _⟩
    exact Or.inr ⟨rfl, Or.inl rfl⟩
  · split
    · rename_i e heq
      rcases UseGas_error heq with ⟨rfl, _⟩
      exact Or.inr ⟨rfl, Or.inl rfl⟩
    · split
      · rename_i r hr
        rcases afterReceiver_shape oracle tx st1 sender (st1.GetAccount r) _ with h | ⟨h1, h2⟩
        · exact Or.inl h
        · exact Or.inr ⟨by rw [h1], by tauto⟩
      · split
        · exact Or.inr ⟨rfl, Or.inr (Or.inl rfl)⟩
        · rename_i contract heq
          rcases afterReceiver_shape oracle tx
              { st1 with states := tx.CreationAddress :: st1.states } sender contract _
            with h | ⟨h1, h2⟩
          · exact Or.inl h
          · exact Or.inr ⟨by rw [h1], by tauto⟩

lemma TransitionState_shape (G : GasSchedule) (oracle : EvalOracle) (cb : Addr)
    (tx : Transaction) (st0 : State) :
    (TransitionState G oracle cb tx st0).error = none
    ∨ TransitionState G oracle cb tx st0
        = ⟨st0, 0, some (.nonceError tx.Nonce (st0.GetAccount tx.sender).Nonce)⟩
    ∨ TransitionState G oracle cb tx st0 = ⟨st0, 0, some .insufficientGasFunds⟩
    ∨ ((TransitionState G oracle cb tx st0).state.accounts
          = (st0.UpdateStateObject ((st0.GetAccount cb).AddAmount tx.GasValue)).accounts ∧
       ((TransitionState G oracle cb tx st0).error = some .outOfGas
        ∨ (TransitionState G oracle cb tx st0).error = some .contractCreationFailed
        ∨ (TransitionState G oracle cb tx st0).error = some .insufficientValueFunds
        ∨ (TransitionState G oracle cb tx st0).error = some .initializationFailed)) := by
  unfold TransitionState
  split
  · exact Or.inr (Or.inl rfl)
  · split
    · exact Or.inr (Or.inr (Or.inl rfl))
    · rcases afterBuyGas_shape G oracle tx
          (st0.UpdateStateObject ((st0.GetAccount cb).AddAmount tx.GasValue))
          ({ st0.GetAccount tx.sender with
              Nonce := ((st0.GetAccount tx.sender).Nonce + 1) % 2 ^ 64 }.SubAmount
            tx.GasValue) (0 + tx.Gas)
        with h | ⟨h1, h2⟩
      · exact Or.inl h
      · exact Or.inr (Or.inr (Or.inr ⟨h1, h2⟩))

/-! ### Forward reduction lemmas -/

lemma TransitionState_to_afterBuyGas (G : GasSchedule) (oracle : EvalOracle)
    (cb : Addr) (tx : Transaction) (st0 : State)
    (hn : (st0.GetAccount tx.sender).Nonce = tx.Nonce)
    (hg : ¬ (st0.GetAccount tx.sender).Amount < tx.GasValue) :
    TransitionState G oracle cb tx st0
      = afterBuyGas G oracle tx
          (st0.UpdateStateObject ((st0.GetAccount cb).AddAmount tx.GasValue))
          ({ st0.GetAccount tx.sender with
              Nonce := ((st0.GetAccount tx.sender).Nonce + 1) % 2 ^ 64 }.SubAmount
            tx.GasValue)
          (0 + tx.Gas) := by
  unfold TransitionState
  rw [if_neg (by simp [hn]), if_neg hg]

lemma UseGas_ok_eq {g a : Int} (h : ¬ g < a) : UseGas g a = .ok (g - a) := by
  unfold UseGas
  rw [if_neg h]

lemma UseGas_error_eq {g a : Int} (h : g < a) : UseGas g a = .error .outOfGas := by
  unfold UseGas
  rw [if_pos h]

lemma afterBuyGas_baseFail (G : GasSchedule) (oracle : EvalOracle)
    (tx : Transaction) (st1 : State) (sender : StateObject) (g0 : Int)
    (h1 : g0 < G.gasTx) :
    afterBuyGas G oracle tx st1 sender g0 = ⟨st1, g0, some .outOfGas⟩ := by
  unfold afterBuyGas
  simp only [UseGas_error_eq h1]

lemma afterBuyGas_dataFail (G : GasSchedule) (oracle : EvalOracle)
    (tx : Transaction) (st1 : State) (sender : StateObject) (g0 : Int)
    (h1 : ¬ g0 < G.gasTx)
    (h2 : g0 - G.gasTx < (tx.Data.length : Int) * G.gasData) :
    afterBuyGas G oracle tx st1 sender g0
      = ⟨st1, g0 - G.gasTx, some .outOfGas⟩ := by
  unfold afterBuyGas
  simp only [UseGas_ok_eq h1, UseGas_error_eq h2]

lemma afterBuyGas_recipient (G : GasSchedule) (oracle : EvalOracle)
    (tx : Transaction) (st1 : State) (sender : StateObject) (g0 : Int) (r : Addr)
    (hr : tx.Recipient = some r)
    (h1 : ¬ g0 < G.gasTx)
    (h2 : ¬ g0 - G.gasTx < (tx.Data.length : Int) * G.gasData) :
    afterBuyGas G oracle tx st1 sender g0
      = afterReceiver oracle tx st1 sender (st1.GetAccount r)
          (g0 - G.gasTx - (tx.Data.length : Int) * G.gasData) := by
  unfold afterBuyGas
  simp only [UseGas_ok_eq h1, UseGas_ok_eq h2, hr]

lemma afterBuyGas_creation (G : GasSchedule) (oracle : EvalOracle)
    (tx : Transaction) (st1 : State) (sender : StateObject) (g0 : Int)
    (hr : tx.Recipient = none)
    (h1 : ¬ g0 < G.gasTx)
    (h2 : ¬ g0 - G.gasTx < (tx.Data.length : Int) * G.gasData)
    (hcoll : lookupAcc st1.accounts tx.CreationAddress = none) :
    afterBuyGas G oracle tx st1 sender g0
      = afterReceiver oracle tx { st1 with states := tx.CreationAddress :: st1.states }
          sender
          { address := tx.CreationAddress, Amount := 0, Nonce := 0,
            script := [], initScript := tx.Data }
          (g0 - G.gasTx - (tx.Data.length : Int) * G.gasData) := by
  unfold afterBuyGas
  simp only [UseGas_ok_eq h1, UseGas_ok_eq h2, hr, MakeContract, hcoll]
  simp

lemma afterBuyGas_creationFail (G : GasSchedule) (oracle : EvalOracle)
    (tx : Transaction) (st1 : State) (sender : StateObject) (g0 : Int)
    (hr : tx.Recipient = none)
    (h1 : ¬ g0 < G.gasTx)
    (h2 : ¬ g0 - G.gasTx < (tx.Data.length : Int) * G.gasData)
    (hcoll : (lookupAcc st1.accounts tx.CreationAddress).isSome) :
    afterBuyGas G oracle tx st1 sender g0
      = ⟨st1, g0 - G.gasTx - (tx.Data.length : Int) * G.gasData,
          some .contractCreationFailed⟩ := by
  unfold afterBuyGas
  simp only [UseGas_ok_eq h1, UseGas_ok_eq h2, hr, MakeContract, hcoll]
  simp

lemma afterReceiver_valueFail (oracle : EvalOracle) (tx : Transaction)
    (st : State) (sender receiver : StateObject) (g : Int)
    (hv : sender.Amount < tx.Value) :
    afterReceiver oracle tx st sender receiver g
      = ⟨st, g, some .insufficientValueFunds⟩ := by
  unfold afterReceiver
  rw [if_pos hv]

lemma afterReceiver_commit_some (oracle : EvalOracle) (tx : Transaction)
    (st : State) (sender receiver : StateObject) (g : Int) (r : Addr)
    (hv : ¬ sender.Amount < tx.Value)
    (hr : tx.Recipient = some r) :
    afterReceiver oracle tx st sender receiver g
      = ⟨(st.UpdateStateObject (sender.SubAmount tx.Value)).UpdateStateObject
          (receiver.AddAmount tx.Value), g, none⟩ := by
  unfold afterReceiver
  rw [if_neg hv]
  simp only [hr]

lemma afterReceiver_commit_none (oracle : EvalOracle) (tx : Transaction)
    (st : State) (sender receiver : StateObject) (g g' : Int) (code : Bytes)
    (hv : ¬ sender.Amount < tx.Value)
    (hr : tx.Recipient = none)
    (hrun : oracle.run (receiver.AddAmount tx.Value).initScript
        (receiver.AddAmount tx.Value) tx.Data g = (.ok code, g')) :
    afterReceiver oracle tx st sender receiver g
      = ⟨(st.UpdateStateObject (sender.SubAmount tx.Value)).UpdateStateObject
          { receiver.AddAmount tx.Value with script := code }, g', none⟩ := by
  unfold afterReceiver
  rw [if_neg hv]
  simp only [hr, hrun]

lemma afterReceiver_initFail (oracle : EvalOracle) (tx : Transaction)
    (st : State) (sender receiver : StateObject) (g g' : Int)
    (hv : ¬ sender.Amount < tx.Value)
    (hr : tx.Recipient = none)
    (hrun : oracle.run (receiver.AddAmount tx.Value).initScript
        (receiver.AddAmount tx.Value) tx.Data g = (.error (), g')) :
    afterReceiver oracle tx st sender receiver g
      = ⟨st, g', some .initializationFailed⟩ := by
  unfold afterReceiver
  rw [if_neg hv]
  simp only [hr, hrun]

/-! ### Success shape -/

lemma afterReceiver_success_shape (oracle : EvalOracle) (tx : Transaction)
    (st : State) (sender receiver : StateObject) (g : Int) :
    (∃ e, (afterReceiver oracle tx st sender receiver g).error = some e)
    ∨ (tx.Value ≤ sender.Amount
       ∧ ∃ receiver' : StateObject,
          receiver'.address = receiver.address
          ∧ (afterReceiver oracle tx st sender receiver g).state
              = (st.UpdateStateObject (sender.SubAmount tx.Value)).UpdateStateObject
                  receiver'
          ∧ (afterReceiver oracle tx st sender receiver g).error = none) := by
  unfold afterReceiver
  split
  · exact Or.inl ⟨_, rfl⟩
  · rename_i hlt
    split
    · exact Or.inr ⟨not_lt.mp hlt, receiver.AddAmount tx.Value, rfl, rfl, rfl⟩
    · split
      · exact Or.inl ⟨_, rfl⟩
      · rename_i code g' heq
        exact Or.inr ⟨not_lt.mp hlt,
          { receiver.AddAmount tx.Value with script := code }, rfl, rfl, rfl⟩

lemma afterBuyGas_success_shape (G : GasSchedule) (oracle : EvalOracle)
    (tx : Transaction) (st1 : State) (sender : StateObject) (g0 : Int)
    (hwf1 : st1.WF) :
    (∃ e, (afterBuyGas G oracle tx st1 sender g0).error = some e)
    ∨ (tx.Value ≤ sender.Amount
       ∧ ∃ receiver' : StateObject,
          receiver'.address = tx.receiverAddress
          ∧ (afterBuyGas G oracle tx st1 sender g0).state.accounts
              = updateAssoc
                  (updateAssoc st1.accounts (sender.SubAmount tx.Value).address
                    (sender.SubAmount tx.Value))
                  receiver'.address receiver'
          ∧ (afterBuyGas G oracle tx st1 sender g0).error = none) := by
  unfold afterBuyGas
  split
  · exact Or.inl ⟨_, rfl⟩
  · split
    · exact Or.inl ⟨_, rfl⟩
    · split
      · rename_i r hr
        rcases afterReceiver_success_shape oracle tx st1 sender (st1.GetAccount r) _
          with ⟨e, he⟩ | ⟨hv, receiver', ha, hst, herr⟩
        · exact Or.inl ⟨e, he⟩
        · refine Or.inr ⟨hv, receiver', ?_, ?_, herr⟩
          · rw [ha, GetAccount_address hwf1 r]
            simp [Transaction.receiverAddress, hr]
          · rw [hst]
            rfl
      · split
        · exact Or.inl ⟨_, rfl⟩
        · rename_i contract heq
          rcases MakeContract_some heq with ⟨rfl, hcoll, hr⟩
          rcases afterReceiver_success_shape oracle tx
              { st1 with states := tx.CreationAddress :: st1.states } sender _ _
            with ⟨e, he⟩ | ⟨hv, receiver', ha, hst, herr⟩
          · exact Or.inl ⟨e, he⟩
          · refine Or.inr ⟨hv, receiver', ?_, ?_, herr⟩
            · rw [ha]
              simp [Transaction.receiverAddress, hr]
            · rw [hst]
              rfl

lemma TransitionState_success_shape (G : GasSchedule) (oracle : EvalOracle)
    (cb : Addr) (tx : Transaction) (st0 : State) (hwf : st0.WF) :
    (∃ e, (TransitionState G oracle cb tx st0).error = some e)
    ∨ ((st0.GetAccount tx.sender).Nonce = tx.Nonce
       ∧ tx.GasValue ≤ (st0.GetAccount tx.sender).Amount
       ∧ tx.Value ≤ (st0.GetAccount tx.sender).Amount - tx.GasValue
       ∧ ∃ receiver' : StateObject,
          receiver'.address = tx.receiverAddress
          ∧ (TransitionState G oracle cb tx st0).state.accounts
              = updateAssoc
                  (updateAssoc
                    (updateAssoc st0.accounts cb
                      ((st0.GetAccount cb).AddAmount tx.GasValue))
                    tx.sender
                    (({ st0.GetAccount tx.sender with
                        Nonce := ((st0.GetAccount tx.sender).Nonce + 1) % 2 ^ 64
                      }.SubAmount tx.GasValue).SubAmount tx.Value))
                  receiver'.address receiver'
          ∧ (TransitionState G oracle cb tx st0).error = none) := by
  by_cases hn : (st0.GetAccount tx.sender).Nonce = tx.Nonce
  · by_cases hg : (st0.GetAccount tx.sender).Amount < tx.GasValue
    · refine Or.inl ⟨.insufficientGasFunds, ?_⟩
      unfold TransitionState
      rw [if_neg (by simp [hn]), if_pos hg]
    · rw [TransitionState_to_afterBuyGas G oracle cb tx st0 hn hg]
      rcases afterBuyGas_success_shape G oracle tx
          (st0.UpdateStateObject ((st0.GetAccount cb).AddAmount tx.GasValue))
          ({ st0.GetAccount tx.sender with
              Nonce := ((st0.GetAccount tx.sender).Nonce + 1) % 2 ^ 64 }.SubAmount
            tx.GasValue)
          (0 + tx.Gas)
          (WF_update _ hwf)
        with ⟨e, he⟩ | ⟨hv, receiver', ha, hst, herr⟩
      · exact Or.inl ⟨e, he⟩
      · refine Or.inr ⟨hn, not_lt.mp hg, by simpa using hv, receiver', ha, ?_, herr⟩
        rw [hst]
        simp only [State.UpdateStateObject, SubAmount_address, AddAmount_address,
          GetAccount_address hwf]
  · refine Or.inl ⟨.nonceError tx.Nonce (st0.GetAccount tx.sender).Nonce, ?_⟩
    unfold TransitionState
    rw [if_pos hn]

/-! ### Gas counter shape -/

lemma afterReceiver_gas_shape (oracle : EvalOracle) (tx : Transaction)
    (st : State) (sender receiver : StateObject) (g : Int)
    (hsound : OracleSound oracle) (hg : 0 ≤ g) :
    (∃ e, (afterReceiver oracle tx st sender receiver g).error = some e)
    ∨ 0 ≤ (afterReceiver oracle tx st sender receiver g).gas := by
  unfold afterReceiver
  split
  · exact Or.inl ⟨_, rfl⟩
  · split
    · exact Or.inr hg
    · split
      · exact Or.inl ⟨_, rfl⟩
      · rename_i code g' heq
        right
        have hb := (hsound (receiver.AddAmount tx.Value).initScript
          (receiver.AddAmount tx.Value) tx.Data g hg).1
        rw [heq] at hb
        exact hb

lemma afterBuyGas_gas_shape (G : GasSchedule) (oracle : EvalOracle)
    (tx : Transaction) (st1 : State) (sender : StateObject) (g0 : Int)
    (hsound : OracleSound oracle) :
    (∃ e, (afterBuyGas G oracle tx st1 sender g0).error = some e)
    ∨ 0 ≤ (afterBuyGas G oracle tx st1 sender g0).gas := by
  unfold afterBuyGas
  split
  · exact Or.inl ⟨_, rfl⟩
  · rename_i g1 hg1
    rcases UseGas_ok hg1 with ⟨hle1, hsub1⟩
    split
    · exact Or.inl ⟨_, rfl⟩
    · rename_i g2 hg2
      rcases UseGas_ok hg2 with ⟨hle2, hsub2⟩
      have hg2n : 0 ≤ g2 := by omega
      split
      · exact afterReceiver_gas_shape oracle tx st1 sender _ g2 hsound hg2n
      · split
        · exact Or.inl ⟨_, rfl⟩
        · exact afterReceiver_gas_shape oracle tx _ sender _ g2 hsound hg2n

lemma TransitionState_gas_shape (G : GasSchedule) (oracle : EvalOracle)
    (cb : Addr) (tx : Transaction) (st0 : State) (hsound : OracleSound oracle) :
    (∃ e, (TransitionState G oracle cb tx st0).error = some e)
    ∨ 0 ≤ (TransitionState G oracle cb tx st0).gas := by
  by_cases hn : (st0.GetAccount tx.sender).Nonce = tx.Nonce
  · by_cases hg : (st0.GetAccount tx.sender).Amount < tx.GasValue
    · refine Or.inl ⟨.insufficientGasFunds, ?_⟩
      unfold TransitionState
      rw [if_neg (by simp [hn]), if_pos hg]
    · rw [TransitionState_to_afterBuyGas G oracle cb tx st0 hn hg]
      exact afterBuyGas_gas_shape G oracle tx _ _ _ hsound
  · refine Or.inl ⟨.nonceError tx.Nonce (st0.GetAccount tx.sender).Nonce, ?_⟩
    unfold TransitionState
    rw [if_pos hn]

/-! ### Sample inputs used by the witnesses -/

/-- A script engine that returns empty code and leaves the gas counter alone. -/
def trivialOracle : EvalOracle := ⟨fun _ _ _ g => (Except.ok [], g)⟩

lemma trivialOracle_sound : OracleSound trivialOracle :=
  fun _ _ _ g hg => ⟨hg, le_refl g⟩

/-- Sample gas schedule: base transaction cost 5, one gas per payload byte. -/
def Gs : GasSchedule := ⟨5, 1⟩

/-- Sample ledger: sender account 1 with balance 100 and nonce 0, account 2
with balance 0. -/
def stS : State := ⟨[(1, ⟨1, 100, 0, [], []⟩), (2, ⟨2, 0, 0, [], []⟩)], []⟩

/-- Sample transaction from the spec scenario: nonce 0, value 10, gas limit 5,
gas price 1, empty payload, to the existing account 2. -/
def txS : Transaction :=
  { Nonce := 0, Recipient := some 2, Value := 10, Gas := 5, GasPrice := 1,
    Data := [], sender := 1 }

/-- Sample transaction whose gas limit 1 cannot cover the base cost 5. -/
def txW1 : Transaction :=
  { Nonce := 0, Recipient := some 2, Value := 10, Gas := 1, GasPrice := 1,
    Data := [], sender := 1 }

/-- Sample transaction whose value 200 exceeds the sender's balance. -/
def txV : Transaction :=
  { Nonce := 0, Recipient := some 3, Value := 200, Gas := 5, GasPrice := 1,
    Data := [], sender := 1 }

/-- Sample transaction with a stale nonce. -/
def txN : Transaction :=
  { Nonce := 1, Recipient := some 2, Value := 10, Gas := 5, GasPrice := 1,
    Data := [], sender := 1 }

/-- Sample contract-creation transaction: no recipient, payload of two bytes. -/
def txC : Transaction :=
  { Nonce := 0, Recipient := none, Value := 10, Gas := 10, GasPrice := 1,
    Data := [1, 2], sender := 1 }

/-- Sample ledger holding only the sender, account 1 with balance 100. -/
def stC : State := ⟨[(1, ⟨1, 100, 0, [], []⟩)], []⟩

/-- Sample ledger where the sender's balance 4 cannot pre-pay 5 gas. -/
def stP : State := ⟨[(1, ⟨1, 4, 0, [], []⟩)], []⟩

/-- A script engine that always returns the code `[9]`. -/
def okOracle : EvalOracle := ⟨fun _ _ _ g => (Except.ok [9], g)⟩

/-- A script engine that always reports failure. -/
def errOracle : EvalOracle := ⟨fun _ _ _ g => (Except.error (), g)⟩

/-! ### Claims -/

/-- C1: during one `TransitionState` run, once the gas purchase has succeeded
the proposer's fee credit of gasLimit × gasPrice is already written through to
the ledger store, so under every later failure (`OutOfGas`,
`InsufficientValueFunds`, `ContractCreationFailed`, `InitializationFailed`)
the proposer remains paid in the store while the sender and receiver entries
remain unmodified there. Stated for a proposer distinct from the sender and
from the receiver, since the embedded store keys accounts by one address. -/
theorem C1_proposer_paid_on_late_failure (G : GasSchedule) (oracle : EvalOracle)
    (cb : Addr) (tx : Transaction) (st0 : State) (e : TransitionError)
    (hwf : st0.WF) (hcs : cb ≠ tx.sender)
    (he : (TransitionState G oracle cb tx st0).error = some e)
    (hlate : e = .outOfGas ∨ e = .insufficientValueFunds
             ∨ e = .contractCreationFailed ∨ e = .initializationFailed) :
    (TransitionState G oracle cb tx st0).state.GetAccount cb
        = (st0.GetAccount cb).AddAmount tx.GasValue
    ∧ (TransitionState G oracle cb tx st0).state.GetAccount tx.sender
        = st0.GetAccount tx.sender
    ∧ (∀ r, tx.Recipient = some r → r ≠ cb →
        (TransitionState G oracle cb tx st0).state.GetAccount r = st0.GetAccount r)
    ∧ (tx.Recipient = none → tx.CreationAddress ≠ cb →
        lookupAcc (TransitionState G oracle cb tx st0).state.accounts
            tx.CreationAddress
          = lookupAcc st0.accounts tx.CreationAddress) := by
  have hcba : ((st0.GetAccount cb).AddAmount tx.GasValue).address = cb := by
    simp [GetAccount_address hwf]
  rcases TransitionState_shape G oracle cb tx st0 with h | h | h | ⟨h1, _⟩
  · rw [he] at h
    cases h
  · rcases hlate with rfl | rfl | rfl | rfl <;> (rw [h] at he; simp at he)
  · rcases hlate with rfl | rfl | rfl | rfl <;> (rw [h] at he; simp at he)
  · refine ⟨?_, ?_, ?_, ?_⟩
    · rw [GetAccount_eq_of_accounts h1 cb]
      exact GetAccount_update_self st0 _ cb hcba
    · rw [GetAccount_eq_of_accounts h1 tx.sender]
      exact GetAccount_update_ne st0 _ tx.sender (by rw [hcba]; exact Ne.symm hcs)
    · intro r hr hrcb
      rw [GetAccount_eq_of_accounts h1 r]
      exact GetAccount_update_ne st0 _ r (by rw [hcba]; exact hrcb)
    · intro _ hca
      rw [h1]
      simp only [State.UpdateStateObject]
      exact lookupAcc_updateAssoc_ne _ _ _ _ (by rw [hcba]; exact hca)

theorem C1_proposer_paid_on_late_failure_witness :
    (TransitionState Gs trivialOracle 9 txW1 stS).state.GetAccount 9
        = (stS.GetAccount 9).AddAmount txW1.GasValue
    ∧ (TransitionState Gs trivialOracle 9 txW1 stS).state.GetAccount txW1.sender
        = stS.GetAccount txW1.sender :=
  ⟨(C1_proposer_paid_on_late_failure Gs trivialOracle 9 txW1 stS .outOfGas
      (by decide) (by decide) (by decide) (Or.inl rfl)).1,
   (C1_proposer_paid_on_late_failure Gs trivialOracle 9 txW1 stS .outOfGas
      (by decide) (by decide) (by decide) (Or.inl rfl)).2.1⟩

/-- C2: the final commit is the only step besides the gas-purchase's proposer
credit that writes through to the ledger store: on any failure, every address
other than the proposer is unchanged in the store, the whole store equals
either the initial store or the initial store with just the proposer credit
applied, and no newly-created contract account is visible in the store. -/
theorem C2_failure_commits_at_most_proposer_credit (G : GasSchedule)
    (oracle : EvalOracle) (cb : Addr) (tx : Transaction) (st0 : State)
    (e : TransitionError) (hwf : st0.WF)
    (he : (TransitionState G oracle cb tx st0).error = some e) :
    (∀ a, a ≠ cb →
      lookupAcc (TransitionState G oracle cb tx st0).state.accounts a
        = lookupAcc st0.accounts a)
    ∧ ((TransitionState G oracle cb tx st0).state.accounts = st0.accounts
       ∨ (TransitionState G oracle cb tx st0).state.accounts
           = (st0.UpdateStateObject
               ((st0.GetAccount cb).AddAmount tx.GasValue)).accounts)
    ∧ (tx.Recipient = none → tx.CreationAddress ≠ cb →
        lookupAcc (TransitionState G oracle cb tx st0).state.accounts
            tx.CreationAddress
          = lookupAcc st0.accounts tx.CreationAddress) := by
  have hcba : ((st0.GetAccount cb).AddAmount tx.GasValue).address = cb := by
    simp [GetAccount_address hwf]
  rcases TransitionState_shape G oracle cb tx st0 with h | h | h | ⟨h1, _⟩
  · rw [he] at h
    cases h
  · rw [h]
    exact ⟨fun a _ => rfl, Or.inl rfl, fun _ _ => rfl⟩
  · rw [h]
    exact ⟨fun a _ => rfl, Or.inl rfl, fun _ _ => rfl⟩
  · refine ⟨?_, Or.inr h1, ?_⟩
    · intro a ha
      rw [h1]
      simp only [State.UpdateStateObject]
      exact lookupAcc_updateAssoc_ne _ _ _ _ (by rw [hcba]; exact ha)
    · intro _ hca
      rw [h1]
      simp only [State.UpdateStateObject]
      exact lookupAcc_updateAssoc_ne _ _ _ _ (by rw [hcba]; exact hca)

theorem C2_failure_commits_at_most_proposer_credit_witness :
    lookupAcc (TransitionState Gs trivialOracle 9 txV stS).state.accounts 1
      = lookupAcc stS.accounts 1 :=
  (C2_failure_commits_at_most_proposer_credit Gs trivialOracle 9 txV stS
    .insufficientValueFunds (by decide) (by decide)).1 1 (by decide)

/-- C4: whenever the transaction nonce differs from the stored sender nonce,
`TransitionState` returns exactly the `NonceError(tx.Nonce, sender.Nonce)`
failure with the ledger state completely unchanged (so the sender's balance,
code and nonce are untouched and nothing is committed). -/
theorem C4_nonce_mismatch_rejects_unchanged (G : GasSchedule)
    (oracle : EvalOracle) (cb : Addr) (tx : Transaction) (st0 : State)
    (h : (st0.GetAccount tx.sender).Nonce ≠ tx.Nonce) :
    TransitionState G oracle cb tx st0
      = ⟨st0, 0, some (.nonceError tx.Nonce (st0.GetAccount tx.sender).Nonce)⟩ := by
  unfold TransitionState
  rw [if_pos h]

theorem C4_nonce_mismatch_rejects_unchanged_witness :
    (stS.GetAccount txN.sender).Nonce ≠ txN.Nonce
    ∧ TransitionState Gs trivialOracle 0 txN stS
        = ⟨stS, 0, some (.nonceError txN.Nonce (stS.GetAccount txN.sender).Nonce)⟩ :=
  ⟨by decide,
   C4_nonce_mismatch_rejects_unchanged Gs trivialOracle 0 txN stS (by decide)⟩

/-- C5: whenever the sender's balance is strictly below gasLimit × gasPrice,
`TransitionState` returns the insufficient-gas-funds failure with the ledger
state completely unchanged: the check precedes the proposer-credit
write-through, and the sender's stored balance and nonce (no nonce bump) are
untouched. -/
theorem C5_insufficient_gas_funds_fully_atomic (G : GasSchedule)
    (oracle : EvalOracle) (cb : Addr) (tx : Transaction) (st0 : State)
    (hn : (st0.GetAccount tx.sender).Nonce = tx.Nonce)
    (hb : (st0.GetAccount tx.sender).Amount < tx.GasValue) :
    TransitionState G oracle cb tx st0 = ⟨st0, 0, some .insufficientGasFunds⟩ := by
  unfold TransitionState
  rw [if_neg (by simp [hn]), if_pos hb]

theorem C5_insufficient_gas_funds_fully_atomic_witness :
    (stP.GetAccount txS.sender).Nonce = txS.Nonce
    ∧ (stP.GetAccount txS.sender).Amount < txS.GasValue
    ∧ TransitionState Gs trivialOracle 0 txS stP
        = ⟨stP, 0, some .insufficientGasFunds⟩ :=
  ⟨by decide, by decide,
   C5_insufficient_gas_funds_fully_atomic Gs trivialOracle 0 txS stP
     (by decide) (by decide)⟩

/-- C6: the gas counter never goes negative: a single `UseGas` whose amount
exceeds the counter fails with `OutOfGas` (leaving the counter at its prior
value, as witnessed by the returned-gas conjunct of the third part), and the
cumulative consumption of a successful transition never exceeds the purchased
gas limit. -/
theorem C6_gas_counter_never_negative (G : GasSchedule) (oracle : EvalOracle)
    (cb : Addr) (tx : Transaction) (st0 : State)
    (hsound : OracleSound oracle) :
    (∀ g a : Int, g < a → UseGas g a = .error .outOfGas)
    ∧ ((TransitionState G oracle cb tx st0).error = none →
        0 ≤ (TransitionState G oracle cb tx st0).gas
        ∧ tx.Gas - (TransitionState G oracle cb tx st0).gas ≤ tx.Gas)
    ∧ ((st0.GetAccount tx.sender).Nonce = tx.Nonce →
        tx.GasValue ≤ (st0.GetAccount tx.sender).Amount →
        tx.Gas < G.gasTx →
        (TransitionState G oracle cb tx st0).error = some .outOfGas
        ∧ (TransitionState G oracle cb tx st0).gas = tx.Gas) := by
  refine ⟨fun g a h => UseGas_error_eq h, ?_, ?_⟩
  · intro h
    rcases TransitionState_gas_shape G oracle cb tx st0 hsound with ⟨e, he⟩ | hge
    · rw [h] at he
      cases he
    · exact ⟨hge, by omega⟩
  · intro hn hg hb
    rw [TransitionState_to_afterBuyGas G oracle cb tx st0 hn (not_lt.mpr hg),
      afterBuyGas_baseFail _ _ _ _ _ _ (by simpa using hb)]
    exact ⟨rfl, by simp⟩

theorem C6_gas_counter_never_negative_witness :
    UseGas 1 5 = .error .outOfGas
    ∧ ((TransitionState Gs trivialOracle 0 txW1 stS).error = some .outOfGas
       ∧ (TransitionState Gs trivialOracle 0 txW1 stS).gas = txW1.Gas) :=
  ⟨(C6_gas_counter_never_negative Gs trivialOracle 0 txW1 stS
      trivialOracle_sound).1 1 5 (by decide),
   (C6_gas_counter_never_negative Gs trivialOracle 0 txW1 stS
      trivialOracle_sound).2.2 (by decide) (by decide) (by decide)⟩

/-- C7: immediately after the gas purchase the transition charges, in strict
order, the fixed base transaction cost and then the data charge of
byteLength(payload) × perByteGasCost, aborting the whole transition with
`OutOfGas` on either shortfall: the base charge is checked against the full
gas limit and the data charge against the limit minus the base cost. -/
theorem C7_base_then_data_gas_charge (G : GasSchedule) (oracle : EvalOracle)
    (cb : Addr) (tx : Transaction) (st0 : State)
    (hn : (st0.GetAccount tx.sender).Nonce = tx.Nonce)
    (hg : tx.GasValue ≤ (st0.GetAccount tx.sender).Amount) :
    (tx.Gas < G.gasTx →
      (TransitionState G oracle cb tx st0).error = some .outOfGas)
    ∧ (G.gasTx ≤ tx.Gas →
        tx.Gas - G.gasTx < (tx.Data.length : Int) * G.gasData →
        (TransitionState G oracle cb tx st0).error = some .outOfGas) := by
  constructor
  · intro h1
    rw [TransitionState_to_afterBuyGas G oracle cb tx st0 hn (not_lt.mpr hg),
      afterBuyGas_baseFail _ _ _ _ _ _ (by simpa using h1)]
  · intro h1 h2
    rw [TransitionState_to_afterBuyGas G oracle cb tx st0 hn (not_lt.mpr hg),
      afterBuyGas_dataFail _ _ _ _ _ _ (by simpa using h1) (by simpa using h2)]

theorem C7_base_then_data_gas_charge_witness :
    (TransitionState Gs trivialOracle 0 txW1 stS).error = some .outOfGas :=
  (C7_base_then_data_gas_charge Gs trivialOracle 0 txW1 stS
    (by decide) (by decide)).1 (by decide)

/-- C3: every successful `TransitionState` run leaves the sender's committed
balance exactly at initial balance − gasLimit × gasPrice − value, and that
balance is non-negative. Stated for a receiver address distinct from the
sender, since the embedded store keys accounts by one address. -/
theorem C3_sender_balance_exact_and_nonneg (G : GasSchedule)
    (oracle : EvalOracle) (cb : Addr) (tx : Transaction) (st0 : State)
    (hwf : st0.WF) (hra : tx.receiverAddress ≠ tx.sender)
    (hok : (TransitionState G oracle cb tx st0).error = none) :
    ((TransitionState G oracle cb tx st0).state.GetAccount tx.sender).Amount
        = (st0.GetAccount tx.sender).Amount - tx.GasValue - tx.Value
    ∧ 0 ≤ ((TransitionState G oracle cb tx st0).state.GetAccount tx.sender).Amount := by
  rcases TransitionState_success_shape G oracle cb tx st0 hwf
    with ⟨e, he⟩ | ⟨hn, hg, hv, receiver', ha, hacc, herr⟩
  · rw [hok] at he
    cases he
  · have hs : (TransitionState G oracle cb tx st0).state.GetAccount tx.sender
        = ({ st0.GetAccount tx.sender with
              Nonce := ((st0.GetAccount tx.sender).Nonce + 1) % 2 ^ 64 }.SubAmount
            tx.GasValue).SubAmount tx.Value := by
      conv_lhs => unfold State.GetAccount
      rw [hacc,
        lookupAcc_updateAssoc_ne _ _ _ _ (by rw [ha]; exact Ne.symm hra),
        lookupAcc_updateAssoc_self]
    rw [hs]
    constructor
    · simp
    · simp only [SubAmount_Amount]
      omega

theorem C3_sender_balance_exact_and_nonneg_witness :
    ((TransitionState Gs trivialOracle 0 txS stS).state.GetAccount txS.sender).Amount
        = (stS.GetAccount txS.sender).Amount - txS.GasValue - txS.Value
    ∧ 0 ≤ ((TransitionState Gs trivialOracle 0 txS stS).state.GetAccount
            txS.sender).Amount :=
  C3_sender_balance_exact_and_nonneg Gs trivialOracle 0 txS stS
    (by decide) (by decide) (by decide)

/-- The length-error return of `ReadMessage` is dead code: whatever the input,
the reader never produces it, because the slicing fault happens first. -/
lemma ReadMessage_never_errLength (data : Bytes) (a b : Nat) :
    ReadMessage data ≠ .errLength a b := by
  unfold ReadMessage
  split
  · simp
  · split
    · simp
    · split
      · simp
      · split
        · simp
        · split
          · omega
          · simp

/-- C10: on an input longer than 8 bytes that begins with the magic token and
declares a 4-byte message length exceeding the bytes remaining after the
8-byte header, `ReadMessage` reaches the Go slice expression
`data[8+messageLength:]` before the length check and faults (slice bound out
of range) instead of returning the message-length error: the concrete input
below declares length 100 with only 3 payload bytes. -/
theorem C10_read_message_overlong_length_faults :
    ReadMessage (MagicToken ++ [0, 0, 0, 100] ++ [1, 2, 3]) = .fault
    ∧ ReadMessage (MagicToken ++ [0, 0, 0, 100] ++ [1, 2, 3])
        ≠ .errLength 3 100 := by
  constructor
  · decide
  · decide

/-- C8: for a contract-creation transaction (absent recipient) with a fresh
creation address, sufficient gas and value, the committed account at the
deterministic creation address carries exactly the code returned by the
script engine and a balance equal to the transferred value; if the script
engine reports failure, the whole transition aborts with
`InitializationFailed`. -/
theorem C8_contract_creation_installs_code (G : GasSchedule) (cb : Addr)
    (tx : Transaction) (st0 : State)
    (hwf : st0.WF)
    (hr : tx.Recipient = none)
    (hn : (st0.GetAccount tx.sender).Nonce = tx.Nonce)
    (hg : tx.GasValue ≤ (st0.GetAccount tx.sender).Amount)
    (h1 : G.gasTx ≤ tx.Gas)
    (h2 : (tx.Data.length : Int) * G.gasData ≤ tx.Gas - G.gasTx)
    (hcoll : lookupAcc st0.accounts tx.CreationAddress = none)
    (hcb : tx.CreationAddress ≠ cb)
    (hv : tx.Value ≤ (st0.GetAccount tx.sender).Amount - tx.GasValue) :
    (∀ (oracle : EvalOracle) (code : Bytes),
      (∀ c g, (oracle.run tx.Data c tx.Data g).1 = Except.ok code) →
      (TransitionState G oracle cb tx st0).error = none
      ∧ (TransitionState G oracle cb tx st0).state.GetAccount tx.CreationAddress
          = { address := tx.CreationAddress, Amount := tx.Value, Nonce := 0,
              script := code, initScript := tx.Data })
    ∧ (∀ oracle : EvalOracle,
        (∀ c g, (oracle.run tx.Data c tx.Data g).1 = Except.error ()) →
        (TransitionState G oracle cb tx st0).error = some .initializationFailed) := by
  have hcba : ((st0.GetAccount cb).AddAmount tx.GasValue).address = cb := by
    simp [GetAccount_address hwf]
  have hcoll1 : lookupAcc
      (st0.UpdateStateObject ((st0.GetAccount cb).AddAmount tx.GasValue)).accounts
      tx.CreationAddress = none := by
    simp only [State.UpdateStateObject]
    rw [lookupAcc_updateAssoc_ne _ _ _ _ (by rw [hcba]; exact hcb)]
    exact hcoll
  have hvred : ¬ ({ st0.GetAccount tx.sender with
      Nonce := ((st0.GetAccount tx.sender).Nonce + 1) % 2 ^ 64 }.SubAmount
        tx.GasValue).Amount < tx.Value := by
    simp only [SubAmount_Amount]
    simp only [not_lt]
    exact hv
  constructor
  · intro oracle code hO
    have hrun := hO
      ((⟨tx.CreationAddress, 0, 0, [], tx.Data⟩ : StateObject).AddAmount tx.Value)
      (0 + tx.Gas - G.gasTx - (tx.Data.length : Int) * G.gasData)
    rcases hpe : oracle.run tx.Data
        ((⟨tx.CreationAddress, 0, 0, [], tx.Data⟩ : StateObject).AddAmount tx.Value)
        tx.Data (0 + tx.Gas - G.gasTx - (tx.Data.length : Int) * G.gasData)
      with ⟨res, g'⟩
    rw [hpe] at hrun
    simp only [Prod.fst] at hrun
    subst hrun
    rw [TransitionState_to_afterBuyGas G oracle cb tx st0 hn (not_lt.mpr hg),
      afterBuyGas_creation G oracle tx _ _ _ hr (by simpa using h1)
        (by simpa using h2) hcoll1,
      afterReceiver_commit_none oracle tx _ _
        (⟨tx.CreationAddress, 0, 0, [], tx.Data⟩ : StateObject)
        (0 + tx.Gas - G.gasTx - (tx.Data.length : Int) * G.gasData) g' code
        hvred hr hpe]
    refine ⟨rfl, ?_⟩
    rw [GetAccount_update_self]
    · simp [StateObject.AddAmount]
    · rfl
  · intro oracle hO
    have hrun := hO
      ((⟨tx.CreationAddress, 0, 0, [], tx.Data⟩ : StateObject).AddAmount tx.Value)
      (0 + tx.Gas - G.gasTx - (tx.Data.length : Int) * G.gasData)
    rcases hpe : oracle.run tx.Data
        ((⟨tx.CreationAddress, 0, 0, [], tx.Data⟩ : StateObject).AddAmount tx.Value)
        tx.Data (0 + tx.Gas - G.gasTx - (tx.Data.length : Int) * G.gasData)
      with ⟨res, g'⟩
    rw [hpe] at hrun
    simp only [Prod.fst] at hrun
    subst hrun
    rw [TransitionState_to_afterBuyGas G oracle cb tx st0 hn (not_lt.mpr hg),
      afterBuyGas_creation G oracle tx _ _ _ hr (by simpa using h1)
        (by simpa using h2) hcoll1,
      afterReceiver_initFail oracle tx _ _
        (⟨tx.CreationAddress, 0, 0, [], tx.Data⟩ : StateObject)
        (0 + tx.Gas - G.gasTx - (tx.Data.length : Int) * G.gasData) g'
        hvred hr hpe]

theorem C8_contract_creation_installs_code_witness :
    ((TransitionState Gs okOracle 0 txC stC).error = none
     ∧ (TransitionState Gs okOracle 0 txC stC).state.GetAccount txC.CreationAddress
         = { address := txC.CreationAddress, Amount := txC.Value, Nonce := 0,
             script := [9], initScript := txC.Data })
    ∧ (TransitionState Gs errOracle 0 txC stC).error = some .initializationFailed :=
  ⟨(C8_contract_creation_installs_code Gs 0 txC stC (by decide) rfl (by decide)
      (by decide) (by decide) (by decide) (by decide) (by decide) (by decide)).1
      okOracle [9] (fun _ _ => rfl),
   (C8_contract_creation_installs_code Gs 0 txC stC (by decide) rfl (by decide)
      (by decide) (by decide) (by decide) (by decide) (by decide) (by decide)).2
      errOracle (fun _ _ => rfl)⟩

/-- Inversion of an `InsufficientValueFunds` failure: it can only arise with
the nonce matching, the gas pre-payment covered, both gas charges covered, the
post-gas balance short of the value, a fresh creation address on the creation
branch, and it leaves the store equal to the initial store with just the
proposer credit applied. -/
lemma valueFail_inverse (G : GasSchedule) (oracle : EvalOracle) (cb : Addr)
    (tx : Transaction) (st0 : State)
    (h : (TransitionState G oracle cb tx st0).error = some .insufficientValueFunds) :
    (st0.GetAccount tx.sender).Nonce = tx.Nonce
    ∧ ¬ (st0.GetAccount tx.sender).Amount < tx.GasValue
    ∧ ¬ 0 + tx.Gas < G.gasTx
    ∧ ¬ 0 + tx.Gas - G.gasTx < (tx.Data.length : Int) * G.gasData
    ∧ (st0.GetAccount tx.sender).Amount - tx.GasValue < tx.Value
    ∧ (tx.Recipient = none →
        lookupAcc (st0.UpdateStateObject
            ((st0.GetAccount cb).AddAmount tx.GasValue)).accounts
          tx.CreationAddress = none)
    ∧ (TransitionState G oracle cb tx st0).state.accounts
        = (st0.UpdateStateObject
            ((st0.GetAccount cb).AddAmount tx.GasValue)).accounts := by
  by_cases hn : (st0.GetAccount tx.sender).Nonce = tx.Nonce
  case neg =>
    exfalso
    unfold TransitionState at h
    rw [if_pos hn] at h
    simp at h
  case pos =>
  by_cases hg : (st0.GetAccount tx.sender).Amount < tx.GasValue
  case pos =>
    exfalso
    unfold TransitionState at h
    rw [if_neg (by simp [hn]), if_pos hg] at h
    simp at h
  case neg =>
  rw [TransitionState_to_afterBuyGas G oracle cb tx st0 hn hg] at h ⊢
  by_cases hb1 : 0 + tx.Gas < G.gasTx
  case pos =>
    exfalso
    rw [afterBuyGas_baseFail _ _ _ _ _ _ hb1] at h
    simp at h
  case neg =>
  by_cases hb2 : 0 + tx.Gas - G.gasTx < (tx.Data.length : Int) * G.gasData
  case pos =>
    exfalso
    rw [afterBuyGas_dataFail _ _ _ _ _ _ hb1 hb2] at h
    simp at h
  case neg =>
  cases hrec : tx.Recipient with
  | some r =>
    rw [afterBuyGas_recipient _ _ _ _ _ _ r hrec hb1 hb2] at h ⊢
    by_cases hv : ({ st0.GetAccount tx.sender with
        Nonce := ((st0.GetAccount tx.sender).Nonce + 1) % 2 ^ 64 }.SubAmount
          tx.GasValue).Amount < tx.Value
    case pos =>
      rw [afterReceiver_valueFail _ _ _ _ _ _ hv] at h ⊢
      refine ⟨hn, hg, hb1, hb2, by simpa using hv, ?_, rfl⟩
      intro hnone
      exact Option.noConfusion hnone
    case neg =>
      exfalso
      rw [afterReceiver_commit_some _ _ _ _ _ _ r hv hrec] at h
      simp at h
  | none =>
    by_cases hcoll : (lookupAcc (st0.UpdateStateObject
        ((st0.GetAccount cb).AddAmount tx.GasValue)).accounts
        tx.CreationAddress).isSome
    case pos =>
      exfalso
      rw [afterBuyGas_creationFail _ _ _ _ _ _ hrec hb1 hb2 hcoll] at h
      simp at h
    case neg =>
      have hcoll' : lookupAcc (st0.UpdateStateObject
          ((st0.GetAccount cb).AddAmount tx.GasValue)).accounts
          tx.CreationAddress = none := Option.not_isSome_iff_eq_none.mp hcoll
      rw [afterBuyGas_creation _ _ _ _ _ _ hrec hb1 hb2 hcoll'] at h ⊢
      by_cases hv : ({ st0.GetAccount tx.sender with
          Nonce := ((st0.GetAccount tx.sender).Nonce + 1) % 2 ^ 64 }.SubAmount
            tx.GasValue).Amount < tx.Value
      case pos =>
        rw [afterReceiver_valueFail _ _ _ _ _ _ hv] at h ⊢
        exact ⟨hn, hg, hb1, hb2, by simpa using hv, fun _ => hcoll', rfl⟩
      case neg =>
        exfalso
        rcases hpe : oracle.run
            ((⟨tx.CreationAddress, 0, 0, [], tx.Data⟩ : StateObject).AddAmount
              tx.Value).initScript
            ((⟨tx.CreationAddress, 0, 0, [], tx.Data⟩ : StateObject).AddAmount
              tx.Value)
            tx.Data (0 + tx.Gas - G.gasTx - (tx.Data.length : Int) * G.gasData)
          with ⟨res, g'⟩
        cases res with
        | error u =>
          cases u
          rw [afterReceiver_initFail oracle tx _ _
            (⟨tx.CreationAddress, 0, 0, [], tx.Data⟩ : StateObject)
            (0 + tx.Gas - G.gasTx - (tx.Data.length : Int) * G.gasData) g'
            hv hrec hpe] at h
          simp at h
        | ok code =>
          rw [afterReceiver_commit_none oracle tx _ _
            (⟨tx.CreationAddress, 0, 0, [], tx.Data⟩ : StateObject)
            (0 + tx.Gas - G.gasTx - (tx.Data.length : Int) * G.gasData) g' code
            hv hrec hpe] at h
          simp at h

/-- C9 counterexample: a concrete transaction that fails with
`InsufficientValueFunds` (sender balance 100, gas pre-payment 5, value 200)
leaves the ledger changed — the proposer's fee credit is already committed —
refuting the claim that the ledger after each such failed run is identical to
the state before it. -/
theorem C9_counterexample_value_funds_mutates_ledger :
    (TransitionState Gs trivialOracle 9 txV stS).error
        = some .insufficientValueFunds
    ∧ (TransitionState Gs trivialOracle 9 txV stS).state ≠ stS := by
  constructor
  · decide
  · decide

/-- C9 (amended): replaying a transaction that failed with `NonceMismatch` or
`InsufficientGasFunds` against the unmodified ledger reproduces the identical
outcome and the ledger is unchanged; a transaction that failed with
`InsufficientValueFunds` reproduces the identical error when replayed against
the resulting ledger, and that failed run changes the ledger by exactly the
proposer's fee credit: every other entry is unchanged, the whole store equals
the initial store with just the proposer credit applied, and the proposer's
entry equals its prior value credited by gasLimit × gasPrice. -/
theorem C9_amended_failure_idempotence (G : GasSchedule) (oracle : EvalOracle)
    (cb : Addr) (tx : Transaction) (st0 : State)
    (hwf : st0.WF) (hcs : cb ≠ tx.sender)
    (hcc : tx.Recipient = none → tx.CreationAddress ≠ cb) :
    ((∃ a b, (TransitionState G oracle cb tx st0).error = some (.nonceError a b))
       ∨ (TransitionState G oracle cb tx st0).error = some .insufficientGasFunds →
      (TransitionState G oracle cb tx st0).state = st0
      ∧ TransitionState G oracle cb tx (TransitionState G oracle cb tx st0).state
          = TransitionState G oracle cb tx st0)
    ∧ ((TransitionState G oracle cb tx st0).error = some .insufficientValueFunds →
        (TransitionState G oracle cb tx
            (TransitionState G oracle cb tx st0).state).error
          = some .insufficientValueFunds
        ∧ (∀ a, a ≠ cb →
            lookupAcc (TransitionState G oracle cb tx st0).state.accounts a
              = lookupAcc st0.accounts a)
        ∧ (TransitionState G oracle cb tx st0).state.accounts
            = (st0.UpdateStateObject
                ((st0.GetAccount cb).AddAmount tx.GasValue)).accounts
        ∧ (TransitionState G oracle cb tx st0).state.GetAccount cb
            = (st0.GetAccount cb).AddAmount tx.GasValue) := by
  constructor
  · intro h
    rcases TransitionState_shape G oracle cb tx st0 with hs | hs | hs | ⟨h1, h2⟩
    · rcases h with ⟨a, b, he⟩ | he <;> (rw [he] at hs; cases hs)
    · exact ⟨by rw [hs], by rw [hs]; exact hs⟩
    · exact ⟨by rw [hs], by rw [hs]; exact hs⟩
    · exfalso
      rcases h with ⟨a, b, he⟩ | he <;>
        rcases h2 with h2 | h2 | h2 | h2 <;> (rw [he] at h2; simp at h2)
  · intro h
    obtain ⟨hn, hg, hb1, hb2, hv, hcoll, hacc⟩ :=
      valueFail_inverse G oracle cb tx st0 h
    have hcba : ((st0.GetAccount cb).AddAmount tx.GasValue).address = cb := by
      simp [GetAccount_address hwf]
    have hlook : ∀ a, a ≠ cb →
        lookupAcc (TransitionState G oracle cb tx st0).state.accounts a
          = lookupAcc st0.accounts a := by
      intro a ha
      rw [hacc]
      simp only [State.UpdateStateObject]
      exact lookupAcc_updateAssoc_ne _ _ _ _ (by rw [hcba]; exact ha)
    refine ⟨?_, hlook, hacc, ?anycb⟩
    case anycb =>
      rw [GetAccount_eq_of_accounts hacc cb]
      exact GetAccount_update_self st0 _ cb hcba
    have hwfP : (TransitionState G oracle cb tx st0).state.WF := by
      unfold State.WF
      rw [hacc]
      exact WF_update _ hwf
    have hsender : (TransitionState G oracle cb tx st0).state.GetAccount tx.sender
        = st0.GetAccount tx.sender := by
      unfold State.GetAccount
      rw [hlook tx.sender (Ne.symm hcs)]
    have hn' : ((TransitionState G oracle cb tx st0).state.GetAccount
        tx.sender).Nonce = tx.Nonce := by rw [hsender]; exact hn
    have hg' : ¬ ((TransitionState G oracle cb tx st0).state.GetAccount
        tx.sender).Amount < tx.GasValue := by rw [hsender]; exact hg
    have hv' : ({ (TransitionState G oracle cb tx st0).state.GetAccount tx.sender
        with Nonce := (((TransitionState G oracle cb tx st0).state.GetAccount
            tx.sender).Nonce + 1) % 2 ^ 64 }.SubAmount tx.GasValue).Amount
          < tx.Value := by
      rw [hsender]
      simpa using hv
    rw [TransitionState_to_afterBuyGas G oracle cb tx _ hn' hg']
    cases hrec : tx.Recipient with
    | some r =>
      rw [afterBuyGas_recipient _ _ _ _ _ _ r hrec hb1 hb2,
        afterReceiver_valueFail _ _ _ _ _ _ hv']
    | none =>
      have hca : tx.CreationAddress ≠ cb := hcc hrec
      have hcollP : lookupAcc
          ((TransitionState G oracle cb tx st0).state.UpdateStateObject
            (((TransitionState G oracle cb tx st0).state.GetAccount cb).AddAmount
              tx.GasValue)).accounts tx.CreationAddress = none := by
        simp only [State.UpdateStateObject]
        rw [lookupAcc_updateAssoc_ne _ _ _ _
          (by rw [AddAmount_address, GetAccount_address hwfP]; exact hca)]
        rw [hlook tx.CreationAddress hca]
        have := hcoll hrec
        simp only [State.UpdateStateObject] at this
        rw [lookupAcc_updateAssoc_ne _ _ _ _ (by rw [hcba]; exact hca)] at this
        exact this
      rw [afterBuyGas_creation _ _ _ _ _ _ hrec hb1 hb2 hcollP,
        afterReceiver_valueFail _ _ _ _ _ _ hv']

theorem C9_amended_failure_idempotence_witness :
    (TransitionState Gs trivialOracle 9 txV
        (TransitionState Gs trivialOracle 9 txV stS).state).error
      = some .insufficientValueFunds :=
  ((C9_amended_failure_idempotence Gs trivialOracle 9 txV stS
      (by decide) (by decide) (by decide)).2 (by decide)).1

end EthGo
